import Mathlib

/-!
Verification of the redeo server engine (`src/server.go`).

The Go source under `src/` supplies `server.go` only; the collaborator
types it calls into (`Request`, `Responder`, `Client`, `ServerInfo`,
`clients`, `UnknownCommand`, `ClientError`, `ParseRequest`) are declared
elsewhere in the repository.  Every definition below that embeds such a
missing collaborator carries a doc comment starting `Modelled from the
spec:`; everything else is a direct shallow embedding of `server.go`.

Machine conventions: a Go `error` value is `Option GoError` (`none` =
nil); a connection is a `Conn` carrying the list of payloads successfully
written to it, in order, plus a script of write outcomes so that write
failures can be expressed; the per-connection request/response loop of
`serveClient` is `serveLoop`, driven by the list of results successive
`ParseRequest` calls would produce.
-/

namespace Redeo

/-- Go error values as the engine distinguishes them: the `io.EOF`
sentinel, errors implementing the `ClientError` marker interface
(recoverable, client-level), and all other errors. -/
inductive GoError
  | eof
  | clientError (m : String)
  | other (m : String)
deriving DecidableEq

/-- The message an error renders to (Go `error.Error()`). -/
def errMessage : GoError → String
  | .eof => "EOF"
  | .clientError m => m
  | .other m => m

/-- Modelled from the spec: `UnknownCommand` is not under `src/`; the spec
says dispatching an unregistered name yields a recoverable (client-level)
"unknown command" error, so it is a `clientError`. -/
def UnknownCommand (name : String) : GoError :=
  .clientError ("ERR unknown command " ++ name)

/-- One fragment of a serialized reply: a payload fragment written by a
handler, or an error line written by `Responder.WriteError`. -/
inductive RItem
  | frag (s : String)
  | errI (s : String)
deriving DecidableEq

/-- A fully serialized reply, written to the connection as one unit. -/
abbrev Payload := List RItem

/-- Modelled from the spec: the `Responder` accumulates reply fragments
or an error for one request; `WriteTo` serializes the accumulated items. -/
structure Responder where
  items : List RItem
deriving DecidableEq

/-- Function `NewResponder` returns an empty accumulator. -/
def NewResponder : Responder := ⟨[]⟩

/-- Modelled from the spec: `Responder.WriteError` accumulates an error
line rendered from the given error. -/
def Responder.WriteError (r : Responder) (e : GoError) : Responder :=
  ⟨r.items ++ [.errI (errMessage e)]⟩

/-- Modelled from the spec: one decoded request — a command name and its
arguments.  The Go struct also holds a `client *Client` back-reference
that `serveClient` assigns; the embedding passes the pointed-to client
state alongside the request instead (see `Server.Apply`). -/
structure Request where
  name : String
  args : List String
deriving DecidableEq

/-- Modelled from the spec: one live connection's session state — opaque
id, quit flag, per-session command counters. -/
structure Client where
  id : Nat
  quit : Bool
  commandsProcessed : Nat
  lastCommand : String
deriving DecidableEq

/-- Modelled from the spec: `NewClient` starts a session with the quit
flag clear and zeroed counters. -/
def NewClient (id : Nat) : Client :=
  ⟨id, false, 0, ""⟩

/-- Modelled from the spec: `trackCommand` updates the originating
session's per-command counters (commands processed, last command name). -/
def Client.trackCommand (c : Client) (name : String) : Client :=
  { c with commandsProcessed := c.commandsProcessed + 1, lastCommand := name }

/-- A handler receives the fresh responder, the request, and the state of
the client the request's back-reference points at (if any); it returns
the mutated responder, the mutated client state, and its error result.
This is `Handler.ServeClient(res, req)` with the in-place mutations made
explicit. -/
abbrev Handler :=
  Request → Responder → Option Client → Responder × Option Client × Option GoError

/-- Modelled from the spec: the stats registry — cumulative connections
accepted and cumulative commands dispatched. -/
structure ServerInfo where
  totalConnections : Nat
  totalCommands : Nat
deriving DecidableEq

/-- Modelled from the spec: `onConnect` increments the cumulative
connections-accepted counter. -/
def ServerInfo.onConnect (i : ServerInfo) : ServerInfo :=
  { i with totalConnections := i.totalConnections + 1 }

/-- Modelled from the spec: `onCommand` increments the cumulative
commands-dispatched counter. -/
def ServerInfo.onCommand (i : ServerInfo) : ServerInfo :=
  { i with totalCommands := i.totalCommands + 1 }

/-- A listener, abstracted to the outcome its `Close()` call reports. -/
structure Listener where
  closeErr : Option GoError
deriving DecidableEq

/-- Modelled from the spec: the session registry — the registered session
ids plus the outcome its close-all sweep reports. -/
structure Clients where
  sessions : List Nat
  clearErr : Option GoError
deriving DecidableEq

/-- Modelled from the spec: `Clear` force-closes every registered session,
empties the mapping, and reports the outcome of the sweep. -/
def Clients.Clear (c : Clients) : Clients × Option GoError :=
  (⟨[], none⟩, c.clearErr)

/-- The server: command table (a Go map from name to handler, embedded as
an association list with overwrite-insert), stats registry, the two
optional listeners, and the session registry. -/
structure Server where
  commands : List (String × Handler)
  info : ServerInfo
  tcp : Option Listener
  unix : Option Listener
  clients : Clients

/-- Function `NewServer` with an empty command table and no listeners. -/
def NewServer : Server :=
  ⟨[], ⟨0, 0⟩, none, none, ⟨[], none⟩⟩

/-- Go map read `srv.commands[k]`: first (unique) binding of `k`. -/
def lookupCmd : List (String × Handler) → String → Option Handler
  | [], _ => none
  | (k, v) :: t, r => if k = r then some v else lookupCmd t r

/-- Go map write `srv.commands[k] = v`: replace the binding of `k`, else
append it. -/
def insertCmd : List (String × Handler) → String → Handler → List (String × Handler)
  | [], k, v => [(k, v)]
  | (k1, v1) :: t, k, v =>
      if k1 = k then (k, v) :: t else (k1, v1) :: insertCmd t k v

/-- Go `unicode.ToLower` on one character (ASCII range, the case the
command-name strings exercise). -/
def charToLower (c : Char) : Char :=
  if 65 ≤ c.toNat ∧ c.toNat ≤ 90 then Char.ofNat (c.toNat + 32) else c

/-- Go `strings.ToLower`: lower-case every character. -/
def strToLower (s : String) : String :=
  ⟨s.data.map charToLower⟩

/-- Method `Handle` registers a handler under the lower-cased command name
(`srv.commands[strings.ToLower(name)] = handler`). -/
def Server.Handle (srv : Server) (name : String) (h : Handler) : Server :=
  { srv with commands := insertCmd srv.commands (strToLower name) h }

/-- The result of `Apply`: the server (its stats may have changed), the
state of the client the request's back-reference points at, the returned
responder (`none` = Go nil), and the returned error. -/
structure ApplyResult where
  srv : Server
  client : Option Client
  res : Option Responder
  err : Option GoError

/-- Method `Apply` from `server.go`: look up `req.Name` verbatim in the command
table; absent → return (nil, UnknownCommand); otherwise bump the
commands-dispatched counter, track the command on the attached client,
run the handler against a fresh responder. -/
def Server.Apply (srv : Server) (req : Request) (reqClient : Option Client) : ApplyResult :=
  match lookupCmd srv.commands req.name with
  | none => ⟨srv, reqClient, none, some (UnknownCommand req.name)⟩
  | some cmd =>
      let srv2 := { srv with info := srv.info.onCommand }
      let rc2 := reqClient.map (fun c => c.trackCommand req.name)
      let t := cmd req NewResponder rc2
      ⟨srv2, t.2.1, some t.1, t.2.2⟩

/-- The connection, seen as a sink of serialized replies.  `written` is
the list of payloads fully and successfully written so far, in order.
`script` prescribes the outcome of each successive `WriteTo` attempt
(indexed by `attempts`; outcomes past the end of the script succeed), so
write failures are expressible. -/
structure Conn where
  script : List Bool
  attempts : Nat
  written : List Payload
deriving DecidableEq

/-- Go `res.WriteTo(conn)`: one atomic write attempt.  Returns the updated
connection and whether the write succeeded (Go: `err == nil`). -/
def Conn.write (c : Conn) (p : Payload) : Conn × Bool :=
  let ok := c.script.getD c.attempts true
  (⟨c.script, c.attempts + 1, if ok then c.written ++ [p] else c.written⟩, ok)

/-- Externally visible actions of one serve loop, in order: a successful
decode of a request, a successful full write of a payload, a failed write
attempt. -/
inductive Ev
  | decoded (name : String)
  | wrote (p : Payload)
  | wfail
deriving DecidableEq

/-- Why (or that) the serve loop stopped looping.  `pending` means the
supplied decode script ran out with the connection still open (the real
loop would block in `ParseRequest`). -/
inductive CloseReason
  | pending
  | decode (e : GoError)
  | fatal (e : GoError)
  | writeFail
  | quitClose
deriving DecidableEq

/-- Function `writeError` from `server.go`: do nothing on `io.EOF`; otherwise
build a fresh responder holding just the error and write it, ignoring the
write's outcome.  Also reports the visible events of the attempt. -/
def writeError (conn : Conn) (e : GoError) : Conn × List Ev :=
  match e with
  | .eof => (conn, [])
  | _ =>
      let p := (NewResponder.WriteError e).items
      let w := conn.write p
      (w.1, if w.2 then [Ev.wrote p] else [Ev.wfail])

/-- The payload `writeError` serializes for a (non-EOF) error. -/
def errPayload (e : GoError) : Payload :=
  (NewResponder.WriteError e).items

/-- What one decode attempt (`ParseRequest`) produced: a request, or an
error (`GoError.eof` for end-of-stream). -/
abbrev DecodeResult := Except GoError Request

/-- Result of running the serve loop: final server and session state,
final connection, the trace of visible events, and why the loop stopped. -/
structure LoopResult where
  srv : Server
  cl : Client
  conn : Conn
  trace : List Ev
  reason : CloseReason

/-- The request/response loop of `serveClient` from `server.go`, driven
by the results successive `ParseRequest` calls would produce.  (The
session-registry bookkeeping, keep-alive and deadline arming that precede
and surround the loop touch only the transport options and registry and
are not observed by the loop's input/output behaviour.)  Decode error →
`writeError`, stop.  Dispatch error → `writeError`; continue iff the
error is a `ClientError`, stop otherwise.  Success → write the responder
payload; stop on write failure; stop after the write if the session's
quit flag is set; otherwise loop. -/
def serveLoop (srv : Server) (cl : Client) (conn : Conn) :
    List DecodeResult → LoopResult
  | [] => ⟨srv, cl, conn, [], .pending⟩
  | .error e :: _ =>
      let w := writeError conn e
      ⟨srv, cl, w.1, w.2, .decode e⟩
  | .ok req :: ds =>
      let a := srv.Apply req (some cl)
      match a.err with
      | some e =>
          let cl2 := a.client.getD cl
          let w := writeError conn e
          match e with
          | .clientError _ =>
              let r := serveLoop a.srv cl2 w.1 ds
              ⟨r.srv, r.cl, r.conn, .decoded req.name :: (w.2 ++ r.trace), r.reason⟩
          | _ => ⟨a.srv, cl2, w.1, .decoded req.name :: w.2, .fatal e⟩
      | none =>
          let cl2 := a.client.getD cl
          let res := a.res.getD NewResponder
          let w := conn.write res.items
          if w.2 then
            if cl2.quit then
              ⟨a.srv, cl2, w.1, [.decoded req.name, .wrote res.items], .quitClose⟩
            else
              let r := serveLoop a.srv cl2 w.1 ds
              ⟨r.srv, r.cl, r.conn, .decoded req.name :: .wrote res.items :: r.trace, r.reason⟩
          else ⟨a.srv, cl2, w.1, [.decoded req.name], .writeFail⟩

/-- Whether an optional listener's `Close()` would report an error. -/
def hasCloseErr : Option Listener → Bool
  | none => false
  | some l => l.closeErr.isSome

/-- Method `Close` from `server.go`, statement for statement: close and nil the
TCP listener, recording its error in `err`; same for the unix listener
(overwriting `err`); then `if e := srv.clients.Clear(); err != nil
{ err = e }` — note the condition tests `err`, exactly as the source
does. -/
def Server.Close (srv : Server) : Server × Option GoError :=
  let p1 : Server × Option GoError :=
    match srv.tcp with
    | none => (srv, none)
    | some l => ({ srv with tcp := none }, if l.closeErr.isSome then l.closeErr else none)
  let p2 : Server × Option GoError :=
    match p1.1.unix with
    | none => p1
    | some l =>
        ({ p1.1 with unix := none }, if l.closeErr.isSome then l.closeErr else p1.2)
  let cleared := p2.1.clients.Clear
  let srv3 := { p2.1 with clients := cleared.1 }
  (srv3, if p2.2.isSome then cleared.2 else p2.2)

/-- What occupies the configured unix-socket path. -/
inductive PathState
  | absent
  | socketFile
  | regularFile
  | dir
deriving DecidableEq

/-- Go `net.Listen("unix", path)`: succeeds by creating the socket file iff
the path is free; an occupied path is a bind error. -/
def bindUnix : PathState → Except GoError PathState
  | .absent => .ok .socketFile
  | _ => .error (.other "listen unix: address already in use")

/-- Function `listenUnix` from `server.go` over the abstract path state:
`os.Stat`; if the path exists (`!os.IsNotExist(err)`) and is not a
directory, `os.RemoveAll` it (with outcome `rmErr`), failing on a removal
error; then bind.  On success the returned state is the socket file the
bind created. -/
def listenUnix (ps : PathState) (rmErr : Option GoError) : Except GoError PathState :=
  match ps with
  | .absent => bindUnix .absent
  | .dir => bindUnix .dir
  | _ =>
      match rmErr with
      | some e => .error e
      | none => bindUnix .absent

/-- A handler that replies with one fragment and succeeds. -/
def hPing : Handler :=
  fun _ res c => (⟨res.items ++ [.frag "PONG"]⟩, c, none)

/-- A handler that replies, sets the session's quit flag, and succeeds. -/
def hQuit : Handler :=
  fun _ res c => (⟨res.items ++ [.frag "BYE"]⟩, c.map (fun x => { x with quit := true }), none)

/-- A handler that accumulates a fragment and then returns an
unclassified (fatal) error. -/
def hBoom : Handler :=
  fun _ res c => (⟨res.items ++ [.frag "data"]⟩, c, some (.other "boom"))

/-! ## Helper lemmas -/

theorem lookupCmd_insertCmd (l : List (String × Handler)) (k r : String) (v : Handler) :
    lookupCmd (insertCmd l k v) r = if k = r then some v else lookupCmd l r := by
  induction l with
  | nil => simp [insertCmd, lookupCmd]
  | cons p t ih =>
      obtain ⟨k1, v1⟩ := p
      by_cases h1 : k1 = k
      · subst h1
        simp only [insertCmd, if_pos rfl, lookupCmd]
        by_cases h2 : k1 = r <;> simp [h2, lookupCmd]
      · simp only [insertCmd, if_neg h1, lookupCmd]
        by_cases h2 : k1 = r
        · subst h2
          have hk : ¬ k = k1 := fun hc => h1 hc.symm
          simp [lookupCmd, hk]
        · simp [h2, ih]

theorem apply_commands (srv : Server) (req : Request) (rc : Option Client) :
    (srv.Apply req rc).srv.commands = srv.commands := by
  unfold Server.Apply
  cases lookupCmd srv.commands req.name <;> simp

/-- A successful write with an empty outcome script. -/
theorem write_nil_script (c : Conn) (p : Payload) (hs : c.script = []) :
    c.write p = (⟨[], c.attempts + 1, c.written ++ [p]⟩, true) := by
  obtain ⟨s, att, wr⟩ := c
  cases hs
  simp [Conn.write]

/-- Function `writeError` on a non-EOF error with an empty outcome script. -/
theorem writeError_ok (c : Conn) (e : GoError) (hs : c.script = []) (he : e ≠ .eof) :
    writeError c e =
      (⟨[], c.attempts + 1, c.written ++ [errPayload e]⟩, [Ev.wrote (errPayload e)]) := by
  cases e with
  | eof => exact absurd rfl he
  | clientError m => simp [writeError, write_nil_script c _ hs, errPayload]
  | other m => simp [writeError, write_nil_script c _ hs, errPayload]

/-- One write attempt only ever appends to the written list. -/
theorem write_extends (c : Conn) (p : Payload) :
    ∃ w, (c.write p).1.written = c.written ++ w := by
  cases h : c.script.getD c.attempts true with
  | true => exact ⟨[p], by simp only [Conn.write, h]; simp⟩
  | false => exact ⟨[], by simp only [Conn.write, h]; simp⟩

theorem writeError_extends (c : Conn) (e : GoError) :
    ∃ w, (writeError c e).1.written = c.written ++ w := by
  cases e with
  | eof => exact ⟨[], by simp [writeError]⟩
  | clientError m =>
      obtain ⟨w, hw⟩ := write_extends c (errPayload (.clientError m))
      exact ⟨w, by simpa [writeError, errPayload] using hw⟩
  | other m =>
      obtain ⟨w, hw⟩ := write_extends c (errPayload (.other m))
      exact ⟨w, by simpa [writeError, errPayload] using hw⟩

/-- The serve loop only ever appends to the connection's written list. -/
theorem serveLoop_extends (srv : Server) (cl : Client) (conn : Conn)
    (ds : List DecodeResult) :
    ∃ w, (serveLoop srv cl conn ds).conn.written = conn.written ++ w := by
  induction ds generalizing srv cl conn with
  | nil => exact ⟨[], by simp [serveLoop]⟩
  | cons d ds ih =>
      cases d with
      | error e =>
          obtain ⟨w, hw⟩ := writeError_extends conn e
          exact ⟨w, by simpa [serveLoop] using hw⟩
      | ok req =>
          cases herr : (srv.Apply req (some cl)).err with
          | some e =>
              cases e with
              | eof =>
                  obtain ⟨w, hw⟩ := writeError_extends conn .eof
                  exact ⟨w, by simp [serveLoop, herr]; simpa using hw⟩
              | clientError m =>
                  obtain ⟨w1, hw1⟩ := writeError_extends conn (.clientError m)
                  obtain ⟨w2, hw2⟩ := ih (srv.Apply req (some cl)).srv
                    ((srv.Apply req (some cl)).client.getD cl)
                    (writeError conn (.clientError m)).1
                  exact ⟨w1 ++ w2, by
                    simp [serveLoop, herr]
                    rw [hw2, hw1, List.append_assoc]⟩
              | other m =>
                  obtain ⟨w, hw⟩ := writeError_extends conn (.other m)
                  exact ⟨w, by simp [serveLoop, herr]; simpa using hw⟩
          | none =>
              by_cases hok : (conn.write ((srv.Apply req (some cl)).res.getD NewResponder).items).2
              · by_cases hquit : ((srv.Apply req (some cl)).client.getD cl).quit
                · obtain ⟨w, hw⟩ :=
                    write_extends conn ((srv.Apply req (some cl)).res.getD NewResponder).items
                  exact ⟨w, by simp [serveLoop, herr, hok, hquit]; exact hw⟩
                · obtain ⟨w1, hw1⟩ :=
                    write_extends conn ((srv.Apply req (some cl)).res.getD NewResponder).items
                  obtain ⟨w2, hw2⟩ := ih (srv.Apply req (some cl)).srv
                    ((srv.Apply req (some cl)).client.getD cl)
                    (conn.write ((srv.Apply req (some cl)).res.getD NewResponder).items).1
                  exact ⟨w1 ++ w2, by
                    simp [serveLoop, herr, hok, hquit]
                    rw [hw2, hw1, List.append_assoc]⟩
              · obtain ⟨w, hw⟩ :=
                  write_extends conn ((srv.Apply req (some cl)).res.getD NewResponder).items
                exact ⟨w, by simp [serveLoop, herr, hok]; exact hw⟩

/-! ## Claim C2 -/

/-- Claim C2 counterexample: applying a request whose lookup fails does
not increment the commands-dispatched counter, contradicting the claim
that every `Apply` call (including failed lookups) increments it by
exactly one: on the fresh server the counter stays at its old value
instead of old value + 1. -/
theorem apply_failed_lookup_no_count :
    (NewServer.Apply ⟨"ping", []⟩ none).srv.info.totalCommands
      ≠ NewServer.info.totalCommands + 1 := by decide

/-- Claim C2 (amended): `Apply` increments the cumulative
commands-dispatched counter by exactly one when the command-name lookup
succeeds, and leaves it unchanged when the lookup fails. -/
theorem apply_counts_successful_lookups (srv : Server) (req : Request)
    (rc : Option Client) :
    (srv.Apply req rc).srv.info.totalCommands =
      (if (lookupCmd srv.commands req.name).isSome
       then srv.info.totalCommands + 1 else srv.info.totalCommands) := by
  unfold Server.Apply
  cases lookupCmd srv.commands req.name <;> simp [ServerInfo.onCommand]

/-! ## Claim C3 -/

/-- Claim C3 counterexample: after registering a handler under `"ping"`,
a request named `"PING"` (differing only in letter case) does NOT resolve
to that handler — `Apply` returns a nil responder and the
unknown-command error. -/
theorem apply_case_sensitive_counterexample :
    ((NewServer.Handle "ping" hPing).Apply ⟨"PING", []⟩ none).res = none ∧
    ((NewServer.Handle "ping" hPing).Apply ⟨"PING", []⟩ none).err
      = some (UnknownCommand "PING") := by
  constructor <;> rfl

/-- Claim C3 (amended): `Handle` stores the handler under the case-folded
registered name, but `Apply` looks the request name up verbatim; a
request therefore resolves to the handler exactly when its name equals
the lower-cased registered name.  Case-insensitive dispatch would rely on
the codec lower-casing request names before `Apply`. -/
theorem handle_lookup (srv : Server) (name : String) (h : Handler) (r : String) :
    lookupCmd (srv.Handle name h).commands r =
      (if strToLower name = r then some h else lookupCmd srv.commands r) := by
  unfold Server.Handle
  exact lookupCmd_insertCmd srv.commands (strToLower name) r h

/-! ## Claim C9 -/

/-- Claim C9: when decoding yields the end-of-stream condition, the serve
loop closes the connection silently — the connection is left exactly as
it was (no write is even attempted), no events are emitted, and the loop
stops with the end-of-stream close reason. -/
theorem serve_eof_silent (srv : Server) (cl : Client) (conn : Conn)
    (ds : List DecodeResult) :
    serveLoop srv cl conn (.error .eof :: ds) = ⟨srv, cl, conn, [], .decode .eof⟩ := by
  simp [serveLoop, writeError]

/-! ## Claim C10 -/

/-- Helper: the failed-lookup branch of `Apply`, spelled out. -/
theorem apply_lookup_none (srv : Server) (req : Request) (rc : Option Client)
    (hl : lookupCmd srv.commands req.name = none) :
    srv.Apply req rc = ⟨srv, rc, none, some (UnknownCommand req.name)⟩ := by
  unfold Server.Apply
  rw [hl]

/-- Claim C10: `Apply` on a request whose name is unregistered returns a
nil responder together with the unknown-command error and leaves every
piece of observable state untouched: the server (counter included) and
the attached client are returned exactly as they were. -/
theorem apply_unknown_atomic (srv : Server) (req : Request) (rc : Option Client)
    (hl : lookupCmd srv.commands req.name = none) :
    srv.Apply req rc = ⟨srv, rc, none, some (UnknownCommand req.name)⟩ :=
  apply_lookup_none srv req rc hl

/-- Concrete instance of `apply_unknown_atomic`. -/
theorem apply_unknown_atomic_witness :
    lookupCmd NewServer.commands "ping" = none ∧
    NewServer.Apply ⟨"ping", []⟩ (some (NewClient 7)) =
      ⟨NewServer, some (NewClient 7), none, some (UnknownCommand "ping")⟩ :=
  ⟨rfl, apply_unknown_atomic NewServer ⟨"ping", []⟩ (some (NewClient 7)) rfl⟩

/-! ## Claim C7 -/

/-- A server whose TCP listener close reports an error while the session
registry sweep reports none. -/
def srvTcpBoom : Server :=
  ⟨[], ⟨0, 0⟩, some ⟨some (.other "tcpboom")⟩, none, ⟨[2], none⟩⟩

/-- Claim C7 counterexample: with a TCP listener whose `Close()` fails
and a clean registry sweep, `Server.Close` returns nil — not the (first
and only) listener-close error.  The source tests `err != nil` (not
`e != nil`) after `clients.Clear()`, so a listener error is overwritten
by the sweep's result. -/
theorem close_drops_listener_error :
    srvTcpBoom.tcp = some ⟨some (.other "tcpboom")⟩ ∧
    (srvTcpBoom.Close).2 = none := ⟨rfl, rfl⟩

/-- Claim C7 (amended): `Close` nils both listeners, empties the session
registry, and is idempotent (a second `Close` changes nothing and
returns nil); but its returned error is nil when no listener close
failed, and otherwise is whatever the registry sweep (`clients.Clear`)
returned — the listener-close error itself (first or last) is discarded. -/
theorem close_spec (srv : Server) :
    (srv.Close).1.tcp = none ∧ (srv.Close).1.unix = none ∧
    (srv.Close).1.clients.sessions = [] ∧
    (srv.Close).1.Close = ((srv.Close).1, none) ∧
    (srv.Close).2 =
      (if hasCloseErr srv.tcp || hasCloseErr srv.unix
       then (srv.clients.Clear).2 else none) := by
  obtain ⟨cmds, info, tcp, unix, cls⟩ := srv
  cases tcp with
  | none =>
      cases unix with
      | none => simp [Server.Close, Clients.Clear, hasCloseErr]
      | some lu =>
          cases hu : lu.closeErr <;>
            simp [Server.Close, Clients.Clear, hasCloseErr, hu]
  | some lt =>
      cases unix with
      | none =>
          cases ht : lt.closeErr <;>
            simp [Server.Close, Clients.Clear, hasCloseErr, ht]
      | some lu =>
          cases ht : lt.closeErr <;> cases hu : lu.closeErr <;>
            simp [Server.Close, Clients.Clear, hasCloseErr, ht, hu]

/-! ## Claim C8 -/

/-- Claim C8 counterexample: with a non-socket regular file occupying the
configured path, `listenUnix` does not fail — it removes the file and
binds successfully.  The source removes any existing non-directory path
occupant, socket or not. -/
theorem listen_unix_removes_regular_file :
    listenUnix .regularFile none = .ok .socketFile := rfl

/-- Claim C8 (amended): `listenUnix` removes any pre-existing
non-directory file at the socket path — a stale socket file or a
non-socket regular file alike — before binding; it fails only when that
removal itself fails or when the occupant is a directory (which it does
not remove, so the bind fails). -/
theorem listen_unix_spec :
    listenUnix .absent none = .ok .socketFile ∧
    listenUnix .socketFile none = .ok .socketFile ∧
    listenUnix .regularFile none = .ok .socketFile ∧
    (∀ e : GoError, listenUnix .socketFile (some e) = .error e) ∧
    (∀ e : GoError, listenUnix .regularFile (some e) = .error e) ∧
    (∀ r : Option GoError,
      listenUnix .dir r = .error (.other "listen unix: address already in use")) :=
  ⟨rfl, rfl, rfl, fun _ => rfl, fun _ => rfl, fun _ => rfl⟩

/-! ## Claim C1 -/

/-- Claim C1 counterexample: a handler that accumulates the fragment
`"data"` in the responder and returns a non-nil (unclassified) error.
The serve loop writes only the error reply built by `writeError` from a
fresh responder; the accumulated fragment is discarded, never serialized. -/
theorem handler_error_discards_accumulated_payload :
    (serveLoop (NewServer.Handle "boom" hBoom) (NewClient 1) ⟨[], 0, []⟩
        [.ok ⟨"boom", []⟩]).conn.written = [[RItem.errI "boom"]] ∧
    RItem.frag "data" ∉
      (serveLoop (NewServer.Handle "boom" hBoom) (NewClient 1) ⟨[], 0, []⟩
        [.ok ⟨"boom", []⟩]).conn.written.flatten := by
  constructor
  · rfl
  · decide

/-- Claim C1 (amended): whenever the dispatched handler returns a non-nil
error (other than the EOF sentinel), the serve loop writes as the reply
for that request the single error payload `writeError` builds from the
returned error — independent of whatever the handler accumulated in its
responder, which is discarded (the statement never consults the
handler's responder output). -/
theorem handler_error_writes_error_reply (srv : Server) (cl : Client) (conn : Conn)
    (req : Request) (h : Handler) (e : GoError) (rest : List DecodeResult)
    (hl : lookupCmd srv.commands req.name = some h)
    (hh : (h req NewResponder (some (cl.trackCommand req.name))).2.2 = some e)
    (he : e ≠ .eof) (hs : conn.script = []) :
    ∃ w, (serveLoop srv cl conn (.ok req :: rest)).conn.written
      = conn.written ++ [errPayload e] ++ w := by
  have ha : (srv.Apply req (some cl)).err = some e := by
    unfold Server.Apply
    rw [hl]
    simpa using hh
  cases e with
  | eof => exact absurd rfl he
  | clientError m =>
      obtain ⟨w2, hw2⟩ := serveLoop_extends (srv.Apply req (some cl)).srv
        ((srv.Apply req (some cl)).client.getD cl)
        (writeError conn (.clientError m)).1 rest
      refine ⟨w2, ?_⟩
      simp only [serveLoop, ha]
      rw [hw2, writeError_ok conn _ hs (by simp)]
  | other m =>
      refine ⟨[], ?_⟩
      simp only [serveLoop, ha]
      rw [writeError_ok conn _ hs (by simp)]
      simp

/-- Concrete instance of `handler_error_writes_error_reply`: the `"boom"`
handler accumulates `"data"` but the reply written is the error payload. -/
theorem handler_error_writes_error_reply_witness :
    lookupCmd (NewServer.Handle "boom" hBoom).commands "boom" = some hBoom ∧
    (hBoom ⟨"boom", []⟩ NewResponder (some ((NewClient 1).trackCommand "boom"))).2.2
      = some (.other "boom") ∧
    ∃ w, (serveLoop (NewServer.Handle "boom" hBoom) (NewClient 1) ⟨[], 0, []⟩
        [.ok ⟨"boom", []⟩]).conn.written = [] ++ [errPayload (.other "boom")] ++ w :=
  ⟨rfl, rfl,
    handler_error_writes_error_reply (NewServer.Handle "boom" hBoom) (NewClient 1)
      ⟨[], 0, []⟩ ⟨"boom", []⟩ hBoom (.other "boom") [] rfl rfl (by decide) rfl⟩

/-! ## Claim C4 -/

/-- Claim C4: a request whose name is not in the command table makes
`Apply` return the recoverable unknown-command error; the serve loop
writes the error reply for it and continues with the next decode, the
server and session state unchanged — the connection is not closed. -/
theorem unknown_command_recoverable (srv : Server) (cl : Client) (conn : Conn)
    (req : Request) (ds : List DecodeResult)
    (hl : lookupCmd srv.commands req.name = none) (hs : conn.script = []) :
    serveLoop srv cl conn (.ok req :: ds) =
      (let r := serveLoop srv cl
          ⟨[], conn.attempts + 1, conn.written ++ [errPayload (UnknownCommand req.name)]⟩ ds
       ⟨r.srv, r.cl, r.conn,
        .decoded req.name :: .wrote (errPayload (UnknownCommand req.name)) :: r.trace,
        r.reason⟩) := by
  have ha : srv.Apply req (some cl) = ⟨srv, some cl, none, some (UnknownCommand req.name)⟩ :=
    apply_lookup_none srv req (some cl) hl
  have hwe := writeError_ok conn (UnknownCommand req.name) hs (by simp [UnknownCommand])
  simp only [serveLoop, ha, UnknownCommand] at *
  rw [hwe]
  simp

/-- Concrete instance of `unknown_command_recoverable`: an unknown
command followed by a registered one — one error reply, then the loop
goes on to serve the next request. -/
theorem unknown_command_recoverable_witness :
    lookupCmd (NewServer.Handle "ping" hPing).commands "nope" = none ∧
    serveLoop (NewServer.Handle "ping" hPing) (NewClient 1) ⟨[], 0, []⟩
        [.ok ⟨"nope", []⟩, .ok ⟨"ping", []⟩] =
      (let r := serveLoop (NewServer.Handle "ping" hPing) (NewClient 1)
          ⟨[], 1, [errPayload (UnknownCommand "nope")]⟩ [.ok ⟨"ping", []⟩]
       ⟨r.srv, r.cl, r.conn,
        .decoded "nope" :: .wrote (errPayload (UnknownCommand "nope")) :: r.trace,
        r.reason⟩) :=
  ⟨rfl,
    unknown_command_recoverable (NewServer.Handle "ping" hPing) (NewClient 1)
      ⟨[], 0, []⟩ ⟨"nope", []⟩ [.ok ⟨"ping", []⟩] rfl rfl⟩

/-! ## Claim C6 -/

theorem getLast_append_single {α : Type} (l : List α) (x : α) :
    (l ++ [x]).getLast? = some x := by
  rw [List.getLast?_append_of_ne_nil l (by simp)]
  rfl

/-- A write attempt that reported success appended exactly its payload. -/
theorem write_true_written (c : Conn) (p : Payload) (hok : (c.write p).2 = true) :
    (c.write p).1.written = c.written ++ [p] := by
  have hg : (c.script[c.attempts]?).getD true = true := by
    simpa [Conn.write, List.getD] using hok
  simp [Conn.write, List.getD, hg]

/-- Claim C6: in every run of the serve loop, whenever the loop closed
the connection because the session's quit flag was set, the very last
visible action of the run was the successful full write of that
request's reply, and that reply is the last payload on the connection —
the quit flag is never acted on before the reply write completes. -/
theorem quit_close_only_after_write (srv : Server) (cl : Client) (conn : Conn)
    (ds : List DecodeResult) :
    (serveLoop srv cl conn ds).reason = .quitClose →
    ∃ p, (serveLoop srv cl conn ds).trace.getLast? = some (Ev.wrote p) ∧
         (serveLoop srv cl conn ds).conn.written.getLast? = some p := by
  induction ds generalizing srv cl conn with
  | nil => intro hq; simp [serveLoop] at hq
  | cons d ds ih =>
      intro hq
      cases d with
      | error e => simp [serveLoop] at hq
      | ok req =>
          cases herr : (srv.Apply req (some cl)).err with
          | some e =>
              cases e with
              | eof => simp [serveLoop, herr] at hq
              | other m => simp [serveLoop, herr] at hq
              | clientError m =>
                  simp only [serveLoop, herr] at hq ⊢
                  obtain ⟨p, h1, h2⟩ := ih _ _ _ hq
                  refine ⟨p, ?_, h2⟩
                  have hne : (serveLoop (srv.Apply req (some cl)).srv
                      ((srv.Apply req (some cl)).client.getD cl)
                      (writeError conn (.clientError m)).1 ds).trace ≠ [] := by
                    intro hnil
                    rw [hnil] at h1
                    simp at h1
                  calc (Ev.decoded req.name :: ((writeError conn (.clientError m)).2 ++
                        (serveLoop (srv.Apply req (some cl)).srv
                          ((srv.Apply req (some cl)).client.getD cl)
                          (writeError conn (.clientError m)).1 ds).trace)).getLast?
                      = ((Ev.decoded req.name :: (writeError conn (.clientError m)).2) ++
                        (serveLoop (srv.Apply req (some cl)).srv
                          ((srv.Apply req (some cl)).client.getD cl)
                          (writeError conn (.clientError m)).1 ds).trace).getLast? := by
                        simp
                    _ = some (Ev.wrote p) := by
                        rw [List.getLast?_append_of_ne_nil _ hne]
                        exact h1
          | none =>
              cases hok : (conn.write ((srv.Apply req (some cl)).res.getD NewResponder).items).2 with
              | false => simp [serveLoop, herr, hok] at hq
              | true =>
                  cases hquit : ((srv.Apply req (some cl)).client.getD cl).quit with
                  | false =>
                      simp only [serveLoop, herr, hok, hquit] at hq ⊢
                      simp only [if_true, Bool.false_eq_true, if_false] at hq ⊢
                      obtain ⟨p, h1, h2⟩ := ih _ _ _ hq
                      refine ⟨p, ?_, h2⟩
                      have hne : (serveLoop (srv.Apply req (some cl)).srv
                          ((srv.Apply req (some cl)).client.getD cl)
                          (conn.write ((srv.Apply req (some cl)).res.getD NewResponder).items).1
                          ds).trace ≠ [] := by
                        intro hnil
                        rw [hnil] at h1
                        simp at h1
                      rw [show (Ev.decoded req.name ::
                            Ev.wrote ((srv.Apply req (some cl)).res.getD NewResponder).items ::
                            (serveLoop (srv.Apply req (some cl)).srv
                              ((srv.Apply req (some cl)).client.getD cl)
                              (conn.write ((srv.Apply req (some cl)).res.getD NewResponder).items).1
                              ds).trace)
                          = ([Ev.decoded req.name,
                              Ev.wrote ((srv.Apply req (some cl)).res.getD NewResponder).items] ++
                            (serveLoop (srv.Apply req (some cl)).srv
                              ((srv.Apply req (some cl)).client.getD cl)
                              (conn.write ((srv.Apply req (some cl)).res.getD NewResponder).items).1
                              ds).trace) from by simp]
                      rw [List.getLast?_append_of_ne_nil _ hne]
                      exact h1
                  | true =>
                      refine ⟨((srv.Apply req (some cl)).res.getD NewResponder).items, ?_, ?_⟩
                      · simp [serveLoop, herr, hok, hquit]
                      · simp only [serveLoop, herr, hok, hquit]
                        simp only [if_true]
                        rw [write_true_written conn _ hok]
                        exact getLast_append_single conn.written _

/-- Concrete instance of `quit_close_only_after_write`: a handler that
sets the quit flag; its reply is written, then the connection closes. -/
theorem quit_close_only_after_write_witness :
    (serveLoop (NewServer.Handle "quit" hQuit) (NewClient 1) ⟨[], 0, []⟩
        [.ok ⟨"quit", []⟩, .ok ⟨"ping", []⟩]).reason = .quitClose ∧
    ∃ p, (serveLoop (NewServer.Handle "quit" hQuit) (NewClient 1) ⟨[], 0, []⟩
        [.ok ⟨"quit", []⟩, .ok ⟨"ping", []⟩]).trace.getLast? = some (Ev.wrote p) ∧
      (serveLoop (NewServer.Handle "quit" hQuit) (NewClient 1) ⟨[], 0, []⟩
        [.ok ⟨"quit", []⟩, .ok ⟨"ping", []⟩]).conn.written.getLast? = some p :=
  ⟨rfl,
    quit_close_only_after_write (NewServer.Handle "quit" hQuit) (NewClient 1)
      ⟨[], 0, []⟩ [.ok ⟨"quit", []⟩, .ok ⟨"ping", []⟩] rfl⟩

/-! ## Claim C5 -/

/-- Method `Apply` on a successful lookup, spelled out. -/
theorem apply_some (srv : Server) (req : Request) (rc : Option Client) (h : Handler)
    (hl : lookupCmd srv.commands req.name = some h) :
    srv.Apply req rc =
      ⟨{ srv with info := srv.info.onCommand },
       (h req NewResponder (rc.map (fun c => c.trackCommand req.name))).2.1,
       some (h req NewResponder (rc.map (fun c => c.trackCommand req.name))).1,
       (h req NewResponder (rc.map (fun c => c.trackCommand req.name))).2.2⟩ := by
  unfold Server.Apply
  rw [hl]

/-- One loop iteration on a dispatch that returned a `ClientError`:
write the error reply and continue. -/
theorem serveLoop_clientError_step (srv : Server) (cl : Client) (conn : Conn)
    (req : Request) (ds : List DecodeResult) (m : String)
    (ha : (srv.Apply req (some cl)).err = some (.clientError m))
    (hs : conn.script = []) :
    (serveLoop srv cl conn (.ok req :: ds)).conn =
      (serveLoop (srv.Apply req (some cl)).srv
        ((srv.Apply req (some cl)).client.getD cl)
        ⟨[], conn.attempts + 1, conn.written ++ [errPayload (.clientError m)]⟩ ds).conn ∧
    (serveLoop srv cl conn (.ok req :: ds)).trace =
      .decoded req.name :: .wrote (errPayload (.clientError m)) ::
        (serveLoop (srv.Apply req (some cl)).srv
          ((srv.Apply req (some cl)).client.getD cl)
          ⟨[], conn.attempts + 1, conn.written ++ [errPayload (.clientError m)]⟩ ds).trace ∧
    (serveLoop srv cl conn (.ok req :: ds)).reason =
      (serveLoop (srv.Apply req (some cl)).srv
        ((srv.Apply req (some cl)).client.getD cl)
        ⟨[], conn.attempts + 1, conn.written ++ [errPayload (.clientError m)]⟩ ds).reason := by
  have hwe := writeError_ok conn (.clientError m) hs (by simp)
  refine ⟨?_, ?_, ?_⟩ <;>
    (simp only [serveLoop, ha]; rw [hwe]; try simp)

/-- One loop iteration on a successful dispatch whose client did not set
the quit flag: write the responder's payload and continue. -/
theorem serveLoop_success_step (srv : Server) (cl : Client) (conn : Conn)
    (req : Request) (ds : List DecodeResult)
    (ha : (srv.Apply req (some cl)).err = none)
    (hquit : ((srv.Apply req (some cl)).client.getD cl).quit = false)
    (hs : conn.script = []) :
    (serveLoop srv cl conn (.ok req :: ds)).conn =
      (serveLoop (srv.Apply req (some cl)).srv
        ((srv.Apply req (some cl)).client.getD cl)
        ⟨[], conn.attempts + 1,
          conn.written ++ [((srv.Apply req (some cl)).res.getD NewResponder).items]⟩ ds).conn ∧
    (serveLoop srv cl conn (.ok req :: ds)).trace =
      .decoded req.name ::
        .wrote ((srv.Apply req (some cl)).res.getD NewResponder).items ::
        (serveLoop (srv.Apply req (some cl)).srv
          ((srv.Apply req (some cl)).client.getD cl)
          ⟨[], conn.attempts + 1,
            conn.written ++ [((srv.Apply req (some cl)).res.getD NewResponder).items]⟩ ds).trace ∧
    (serveLoop srv cl conn (.ok req :: ds)).reason =
      (serveLoop (srv.Apply req (some cl)).srv
        ((srv.Apply req (some cl)).client.getD cl)
        ⟨[], conn.attempts + 1,
          conn.written ++ [((srv.Apply req (some cl)).res.getD NewResponder).items]⟩ ds).reason := by
  have hw := write_nil_script conn ((srv.Apply req (some cl)).res.getD NewResponder).items hs
  refine ⟨?_, ?_, ?_⟩ <;>
    (simp only [serveLoop, ha]; rw [hw]; try simp [hquit])

/-- A request is benign for a command table when either its name is
unregistered (the unknown-command error is recoverable), or its handler,
run from any non-quitting client state, neither sets the quit flag nor
returns an error other than a `ClientError`. -/
def BenignCmd (cmds : List (String × Handler)) (req : Request) : Prop :=
  ∀ h, lookupCmd cmds req.name = some h →
    ∀ cl : Client, cl.quit = false →
      (((h req NewResponder (some (cl.trackCommand req.name))).2.1.getD cl).quit = false) ∧
      ((h req NewResponder (some (cl.trackCommand req.name))).2.2 = none ∨
        ∃ m, (h req NewResponder (some (cl.trackCommand req.name))).2.2
          = some (GoError.clientError m))

/-- Claim C5 counterexample: two well-formed pipelined requests whose
handler sets the quit flag — the loop writes only one reply, not one per
request: the claim's "exactly N replies" fails as stated. -/
theorem quit_truncates_pipeline :
    (serveLoop (NewServer.Handle "quit" hQuit) (NewClient 1) ⟨[], 0, []⟩
        ([(⟨"quit", []⟩ : Request), ⟨"quit", []⟩].map Except.ok)).conn.written
      = [[RItem.frag "BYE"]] ∧
    (serveLoop (NewServer.Handle "quit" hQuit) (NewClient 1) ⟨[], 0, []⟩
        ([(⟨"quit", []⟩ : Request), ⟨"quit", []⟩].map Except.ok)).conn.written.length
      ≠ [(⟨"quit", []⟩ : Request), ⟨"quit", []⟩].length := by
  constructor
  · rfl
  · decide

/-- Claim C5 (amended): for every sequence of N well-formed pipelined
requests on one connection whose dispatches are all recoverable-or-
successful and never set the quit flag (and whose writes all succeed),
the serve loop writes exactly N replies, one per request, in request
order, and the event trace alternates decode-then-write per request —
each reply is fully written before the next decode.  (Counterexample
`quit_truncates_pipeline` shows the provisos are necessary.) -/
theorem pipelined_replies_in_order (srv : Server) (cl : Client) (conn : Conn)
    (qs : List Request)
    (hb : ∀ q ∈ qs, BenignCmd srv.commands q)
    (hq : cl.quit = false) (hs : conn.script = []) :
    ∃ ps : List Payload, ps.length = qs.length ∧
      (serveLoop srv cl conn (qs.map Except.ok)).conn.written = conn.written ++ ps ∧
      (serveLoop srv cl conn (qs.map Except.ok)).trace =
        (List.zipWith (fun (q : Request) (p : Payload) =>
          [Ev.decoded q.name, Ev.wrote p]) qs ps).flatten ∧
      (serveLoop srv cl conn (qs.map Except.ok)).reason = .pending := by
  induction qs generalizing srv cl conn with
  | nil => exact ⟨[], by simp [serveLoop]⟩
  | cons q qs ih =>
      have hbq : BenignCmd srv.commands q := hb q (List.mem_cons_self _ _)
      have hbs : ∀ q2 ∈ qs, BenignCmd srv.commands q2 :=
        fun q2 hm => hb q2 (List.mem_cons_of_mem _ hm)
      cases hl : lookupCmd srv.commands q.name with
      | none =>
          have ha : srv.Apply q (some cl) =
              ⟨srv, some cl, none, some (UnknownCommand q.name)⟩ :=
            apply_lookup_none srv q (some cl) hl
          have hasrv0 : (srv.Apply q (some cl)).srv = srv := by rw [ha]
          have hacl0 : (srv.Apply q (some cl)).client.getD cl = cl := by
            rw [ha]
            rfl
          obtain ⟨hc, htr, hre⟩ := serveLoop_clientError_step srv cl conn q
            (qs.map Except.ok) ("ERR unknown command " ++ q.name) (by rw [ha]; rfl) hs
          obtain ⟨ps, hlen, hw, ht, hr⟩ := ih (srv.Apply q (some cl)).srv
            ((srv.Apply q (some cl)).client.getD cl)
            ⟨[], conn.attempts + 1,
              conn.written ++ [errPayload (.clientError ("ERR unknown command " ++ q.name))]⟩
            (by rw [hasrv0]; exact hbs) (by rw [hacl0]; exact hq) rfl
          rw [List.map_cons]
          refine ⟨errPayload (.clientError ("ERR unknown command " ++ q.name)) :: ps,
            by simp [hlen], ?_, ?_, ?_⟩
          · rw [hc, hw]
            simp
          · rw [htr, ht]
            simp
          · rw [hre, hr]
      | some h =>
          obtain ⟨hquit2, herr2⟩ := hbq h hl cl hq
          have ha := apply_some srv q (some cl) h hl
          have haerr : (srv.Apply q (some cl)).err =
              (h q NewResponder (some (cl.trackCommand q.name))).2.2 := by
            rw [ha]
            rfl
          have hacl : (srv.Apply q (some cl)).client.getD cl =
              (h q NewResponder (some (cl.trackCommand q.name))).2.1.getD cl := by
            rw [ha]
            rfl
          have hacmds : (srv.Apply q (some cl)).srv.commands = srv.commands :=
            apply_commands srv q (some cl)
          cases herr2 with
          | inl hnone =>
              obtain ⟨hc, htr, hre⟩ := serveLoop_success_step srv cl conn q
                (qs.map Except.ok)
                (by rw [haerr]; exact hnone) (by rw [hacl]; exact hquit2) hs
              obtain ⟨ps, hlen, hw, ht, hr⟩ := ih (srv.Apply q (some cl)).srv
                ((srv.Apply q (some cl)).client.getD cl)
                ⟨[], conn.attempts + 1,
                  conn.written ++ [((srv.Apply q (some cl)).res.getD NewResponder).items]⟩
                (by rw [hacmds]; exact hbs) (by rw [hacl]; exact hquit2) rfl
              rw [List.map_cons]
              refine ⟨((srv.Apply q (some cl)).res.getD NewResponder).items :: ps,
                by simp [hlen], ?_, ?_, ?_⟩
              · rw [hc, hw]
                simp
              · rw [htr, ht]
                simp
              · rw [hre, hr]
          | inr herr3 =>
              obtain ⟨m, hm⟩ := herr3
              obtain ⟨hc, htr, hre⟩ := serveLoop_clientError_step srv cl conn q
                (qs.map Except.ok) m (by rw [haerr]; exact hm) hs
              obtain ⟨ps, hlen, hw, ht, hr⟩ := ih (srv.Apply q (some cl)).srv
                ((srv.Apply q (some cl)).client.getD cl)
                ⟨[], conn.attempts + 1, conn.written ++ [errPayload (.clientError m)]⟩
                (by rw [hacmds]; exact hbs) (by rw [hacl]; exact hquit2) rfl
              rw [List.map_cons]
              refine ⟨errPayload (.clientError m) :: ps, by simp [hlen], ?_, ?_, ?_⟩
              · rw [hc, hw]
                simp
              · rw [htr, ht]
                simp
              · rw [hre, hr]

/-- Concrete instance of `pipelined_replies_in_order`: two pipelined
`"ping"` requests produce exactly two `PONG` replies in order. -/
theorem pipelined_replies_in_order_witness :
    (∀ q ∈ [(⟨"ping", []⟩ : Request), ⟨"ping", []⟩],
      BenignCmd (NewServer.Handle "ping" hPing).commands q) ∧
    (NewClient 1).quit = false ∧
    ∃ ps : List Payload, ps.length = [(⟨"ping", []⟩ : Request), ⟨"ping", []⟩].length ∧
      (serveLoop (NewServer.Handle "ping" hPing) (NewClient 1) ⟨[], 0, []⟩
        ([(⟨"ping", []⟩ : Request), ⟨"ping", []⟩].map Except.ok)).conn.written
        = (⟨[], 0, []⟩ : Conn).written ++ ps ∧
      (serveLoop (NewServer.Handle "ping" hPing) (NewClient 1) ⟨[], 0, []⟩
        ([(⟨"ping", []⟩ : Request), ⟨"ping", []⟩].map Except.ok)).trace =
        (List.zipWith (fun (q : Request) (p : Payload) =>
          [Ev.decoded q.name, Ev.wrote p]) [(⟨"ping", []⟩ : Request), ⟨"ping", []⟩] ps).flatten ∧
      (serveLoop (NewServer.Handle "ping" hPing) (NewClient 1) ⟨[], 0, []⟩
        ([(⟨"ping", []⟩ : Request), ⟨"ping", []⟩].map Except.ok)).reason = .pending := by
  have hb : ∀ q ∈ [(⟨"ping", []⟩ : Request), ⟨"ping", []⟩],
      BenignCmd (NewServer.Handle "ping" hPing).commands q := by
    intro q hm h hl cl hcl
    have hq2 : q = ⟨"ping", []⟩ := by
      rcases List.mem_cons.mp hm with h1 | h1
      · exact h1
      · rcases List.mem_cons.mp h1 with h2 | h2
        · exact h2
        · cases h2
    subst hq2
    have hlook : lookupCmd (NewServer.Handle "ping" hPing).commands "ping" = some hPing := rfl
    rw [hlook] at hl
    cases hl
    refine ⟨?_, Or.inl rfl⟩
    simpa [hPing, Client.trackCommand] using hcl
  exact ⟨hb, rfl,
    pipelined_replies_in_order (NewServer.Handle "ping" hPing) (NewClient 1)
      ⟨[], 0, []⟩ [⟨"ping", []⟩, ⟨"ping", []⟩] hb rfl rfl⟩

end Redeo
